import Mathlib

/-!
Verification of the `trackhub-utils` package (`phub`): a shallow embedding of
the claim-relevant parts of `phub/utils.py`, `phub/get_bam2bigWig.py`,
`phub/get_bed2bigBed.py`, `phub/get_bedGraph2bigWig.py` and `phub/get_hub.py`,
together with theorems settling the behavioural claims about them.

Conventions of the embedding:
* Machine integers are `Int`/`Nat` (no overflow is relevant here).
* Fallible Python code is embedded in `Except PyError`.
* Filesystem and subprocess interaction is factored into a `World` record of
  oracles (`os.path.exists`, `subprocess.call` return codes, the file-checker
  results, `shlex.split(f)[0]`); the observable actions of a function are
  returned as an explicit `Effect` trace.
* Python name resolution failures (`NameError`) are embedded by an explicit
  lookup of a bare name in the list of names actually bound in the enclosing
  scope, taken from the source file.
-/

/-- Python exceptions raised by the embedded code. -/
inductive PyError where
  | nameError (name : String)
  | keyError (msg : String)
  | typeError (msg : String)
  | indexError (msg : String)
  | calledProcessError (returncode : Int) (cmd : String)
  | osError (msg : String)
  | fileNotFoundError (msg : String)
deriving DecidableEq, Repr

/-- Observable side effects of the embedded shell helpers: logging calls,
directory creation, shell invocation, renames and removals.  `shellCall c`
is the single effect that marks an actual `subprocess.call` of `c`. -/
inductive Effect where
  | logDebug (msg : String)
  | logInfo (msg : String)
  | logWarning (msg : String)
  | logCritical (msg : String)
  | makedirs (dir : String)
  | shellCall (cmd : String)
  | renameFile (src : String) (dst : String)
  | removeFile (path : String)
deriving DecidableEq, Repr

/-- External-world oracles consulted by the embedded code.  `pathExists`
is the state of `os.path.exists` at call entry (the functions under
verification only consult it, they never re-create the files they remove
within one call).  `run` gives the return code of a shell command,
`checkFile n f` the result of the file-checker for `f` on attempt `n`,
and `shlexFirst` models `shlex.split(f)[0]` (stripping shell quoting). -/
structure World where
  pathExists : String → Bool
  run : String → Int
  checkFile : Nat → String → Bool
  shlexFirst : String → String

/-- Python single-quote character, used when mirroring `repr` of strings. -/
def pyQuote : String := String.singleton (Char.ofNat 39)

/-- Python `repr` of a plain string (no special characters modelled). -/
def pyStrRepr (s : String) : String := pyQuote ++ s ++ pyQuote

/-- Python `repr` of a list of plain strings, as used by `str.format`. -/
def pyListRepr (l : List String) : String :=
  "[" ++ String.intercalate ", " (l.map pyStrRepr) ++ "]"

/-- Boolean list-level test that the first char list is a prefix of the second. -/
def isPreOf : List Char → List Char → Bool
  | [], _ => true
  | _ :: _, [] => false
  | a :: as, b :: bs => a = b && isPreOf as bs

/-- Does `s` start with `pre`?  (kernel-friendly `str.startswith`). -/
def strStarts (s pre : String) : Bool := isPreOf pre.data s.data

/-- Does `s` end with `suf`?  (kernel-friendly `str.endswith`). -/
def strEnds (s suf : String) : Bool := isPreOf suf.data.reverse s.data.reverse

/-- Does `s` contain `sub` as a contiguous substring?  Used to model the
`.*(alt).*`-shaped regular expressions the converters build, whose `re.match`
succeeds exactly when some literal alternative occurs in the name. -/
def strContainsSub : List Char → List Char → Bool
  | _, [] => true
  | [], _ :: _ => false
  | c :: cs, sub => isPreOf sub (c :: cs) || strContainsSub cs sub

/-- Python `os.path.dirname` helper: the prefix of the character list up to and
including the last slash (empty if there is no slash). -/
def upToLastSlash : List Char → List Char
  | [] => []
  | c :: cs =>
    let t := upToLastSlash cs
    if t.isEmpty then (if c = '/' then [c] else []) else c :: t

/-- Strip trailing slashes from a character list. -/
def rstripSlash (l : List Char) : List Char := (l.reverse.dropWhile (· = '/')).reverse

/-- Embedding of `os.path.dirname` (POSIX): everything up to the last slash,
with trailing slashes stripped unless the head is made of slashes only. -/
def dirname (p : String) : String :=
  let head := upToLastSlash p.data
  if head.isEmpty then ""
  else if head.all (· = '/') then String.mk head
  else String.mk (rstripSlash head)

/-- Embedding of the two-argument `os.path.join` (POSIX). -/
def os_path_join (a b : String) : String :=
  if strStarts b "/" then b
  else if a = "" || strEnds a "/" then a ++ b
  else a ++ "/" ++ b

/-- Embedding of `utils.check_call_step` (`phub/utils.py`, lines 195-220):
logs the command, then — when `current_step >= init_step` and `call` — runs it,
raising `CalledProcessError` on a non-zero return code when `raise_on_error`,
else warning; otherwise it only logs that the call is skipped. -/
def check_call_step (w : World) (cmd : String) (current_step init_step : Int)
    (call raise_on_error : Bool) : Except PyError (Int × List Effect) :=
  if current_step ≥ init_step then
    if call then
      let ret := w.run cmd
      if raise_on_error ∧ ret ≠ 0 then
        .error (.calledProcessError ret cmd)
      else if ret ≠ 0 then
        .ok (ret, [.logInfo cmd, .logInfo "calling", .shellCall cmd,
          .logWarning ("The command returned a non-zero return code\n\t" ++ cmd ++
            "\n\tReturn code: " ++ toString ret)])
      else
        .ok (ret, [.logInfo cmd, .logInfo "calling", .shellCall cmd])
    else
      .ok (0, [.logInfo cmd, .logInfo "skipping due to --do-not-call flag"])
  else
    .ok (0, [.logInfo cmd, .logInfo "skipping due to --init-step"])

/-- Embedding of `utils.check_call` (`phub/utils.py`, lines 224-225). -/
def check_call (w : World) (cmd : String) (call raise_on_error : Bool) :
    Except PyError (Int × List Effect) :=
  check_call_step w cmd (-1) (-1) call raise_on_error

/-- The `out_files` parameter of `call_if_not_exists`: Python accepts a single
string, a list of strings, or `None`. -/
inductive OutFiles where
  | none
  | str (s : String)
  | list (l : List String)
deriving DecidableEq, Repr

/-- The normalisation `if isinstance(out_files, str): out_files = [out_files]`
performed at `phub/utils.py`, lines 338-339. -/
def OutFiles.norm : OutFiles → Option (List String)
  | .none => Option.none
  | .str s => some [s]
  | .list l => some l

/-- The paths an `out_files` argument declares. -/
def OutFiles.listed : OutFiles → List String
  | .none => []
  | .str s => [s]
  | .list l => l

/-- Effects of the `to_delete` loop at `phub/utils.py`, lines 400-407: each
existing listed file is removed (the source logs `cmd`, not the built
`Removing file` message — embedded as written). -/
def deleteLoopEffects (w : World) (cmd : String) (to_delete : List String) : List Effect :=
  to_delete.flatMap (fun f =>
    if w.pathExists f then [Effect.logInfo cmd, Effect.removeFile f] else [])

/-- The `while attempt < num_attempts` loop of `call_if_not_exists`
(`phub/utils.py`, lines 348-383), one recursion level per iteration.
Returns the last `ret_code`, the final `all_valid` flag and the effect trace.
`attempt` is the 1-based attempt counter fed to the file-checker oracle. -/
def attemptLoop (w : World) (cmd : String) (outs : Option (List String))
    (call raise_on_error : Bool) (file_checkers : Option (List String)) :
    Nat → Nat → Except PyError (Int × Bool × List Effect)
  | 0, _ => .ok (0, true, [])
  | remaining + 1, attempt =>
    let mkdirEff : List Effect :=
      match outs with
      | some ofs => ofs.map (fun x => Effect.makedirs (dirname x))
      | Option.none => []
    match check_call w cmd call raise_on_error with
    | .error e => .error e
    | .ok (ret, callEff) =>
      if !call || file_checkers.isNone then
        .ok (ret, true, mkdirEff ++ callEff)
      else
        let checkers := file_checkers.getD []
        let results := checkers.map (fun fn => (fn, w.checkFile attempt fn))
        let checkEff := results.flatMap (fun p =>
          if p.2 then [Effect.logDebug ("Checking file for validity: " ++ p.1)]
          else [Effect.logDebug ("Checking file for validity: " ++ p.1),
            Effect.logWarning ("Rename invalid file: " ++ p.1 ++ " to " ++ p.1 ++ ".invalid"),
            Effect.renameFile p.1 (p.1 ++ ".invalid")])
        let all_valid := results.all (fun p => p.2)
        if all_valid then
          .ok (ret, true, mkdirEff ++ callEff ++ checkEff)
        else
          match remaining with
          | 0 => .ok (ret, false, mkdirEff ++ callEff ++ checkEff)
          | r + 1 =>
            match attemptLoop w cmd outs call raise_on_error file_checkers (r + 1) (attempt + 1) with
            | .error e => .error e
            | .ok (ret2, av2, eff2) => .ok (ret2, av2, mkdirEff ++ callEff ++ checkEff ++ eff2)

/-- Embedding of `utils.call_if_not_exists` (`phub/utils.py`, lines 228-409).
The structure follows the source: (1) input files are existence-checked after
`shlex` stripping, a missing one warns and returns 0 immediately; (2) the
output files are normalised and existence-checked; (3) when `overwrite` or not
all outputs exist, the attempt loop runs, after which `not all_valid` raises
`OSError` (or logs critically) and otherwise the `to_delete` loop runs unless
`keep_delete_files`; (4) when all outputs exist and not `overwrite`, the call
is skipped with a warning (with `all_valid` still true, so the `to_delete`
loop also runs there).  The returned `Int` is `ret_code`. -/
def call_if_not_exists (w : World) (cmd : String) (out_files : OutFiles)
    (in_files : List String) (overwrite call raise_on_error : Bool)
    (file_checkers : Option (List String)) (num_attempts : Nat)
    (to_delete : List String) (keep_delete_files : Bool) :
    Except PyError (Int × List Effect) :=
  let missing_in_files := (in_files.map w.shlexFirst).filter (fun f => !(w.pathExists f))
  if missing_in_files ≠ [] then
    .ok (0, [.logWarning ("Some input files " ++ pyListRepr missing_in_files ++
      " are missing. Skipping call: \n" ++ cmd)])
  else
    let outs := out_files.norm
    let all_out_exists : Bool :=
      match outs with
      | some ofs => ofs.all w.pathExists
      | Option.none => false
    if overwrite || !all_out_exists then
      match attemptLoop w cmd outs call raise_on_error file_checkers num_attempts 1 with
      | .error e => .error e
      | .ok (ret, all_valid, eff) =>
        if !all_valid then
          if raise_on_error then
            .error (.osError ("Exceeded maximum number of attempts for cmd. The output files do not appear to be valid: " ++ cmd))
          else
            .ok (ret, eff ++ [.logCritical ("Exceeded maximum number of attempts for cmd. The output files do not appear to be valid: " ++ cmd)])
        else if !keep_delete_files then
          .ok (ret, eff ++ deleteLoopEffects w cmd to_delete)
        else
          .ok (ret, eff)
    else
      let warnEff := Effect.logWarning ("All output files " ++
        (match outs with
          | some ofs => pyListRepr ofs
          | Option.none => "None") ++ " already exist. Skipping call: \n" ++ cmd)
      if !keep_delete_files then
        .ok (0, warnEff :: deleteLoopEffects w cmd to_delete)
      else
        .ok (0, [warnEff])

/-- One row of a BED/bedGraph data frame as the converters see it: the first
column (`chrom`, forced to string by `_read_bed`), the second column
(`chromStart`, numeric), and the remaining cell values in column order
(`rest.get? i` is column `i + 2`; so the strand column 5 is `rest` index 3 and
the `itemRgb` column 8 is `rest` index 6). -/
structure Row where
  chrom : String
  start : Int
  rest : List String
deriving DecidableEq, Repr

/-- Embedding of the `--add-chr` step (`get_bed2bigBed.py` lines 101-102,
`get_bedGraph2bigWig.py` lines 93-94): prepend `chr` to every chromosome. -/
def applyAddChr (addChr : Bool) (rows : List Row) : List Row :=
  if addChr then rows.map (fun r => { r with chrom := "chr" ++ r.chrom }) else rows

/-- Embedding of the `--chr-dict` remapping loop (`get_bed2bigBed.py` lines
103-106 and `get_bedGraph2bigWig.py` lines 95-98): the dict items are applied
one after the other, each rewriting every row whose current chromosome name
equals the item's old name to the item's new name.  `Option.none` models an
absent (falsy) `args.chr_dict`. -/
def applyChrDict (d : Option (List (String × String))) (rows : List Row) : List Row :=
  match d with
  | Option.none => rows
  | some items =>
    items.foldl (fun acc p =>
      acc.map (fun r => if r.chrom = p.1 then { r with chrom := p.2 } else r)) rows

/-- Embedding of the `--chr-file` remapping (`get_bed2bigBed.py` lines 107-112,
`get_bedGraph2bigWig.py` lines 99-104): `DataFrame.replace` with a dictionary,
i.e. one simultaneous lookup per row.  The association list stands for the
dict built from the CSV (assumed duplicate-free, as a Python dict is). -/
def applyChrFile (m : Option (List (String × String))) (rows : List Row) : List Row :=
  match m with
  | Option.none => rows
  | some assoc =>
    rows.map (fun r =>
      match assoc.lookup r.chrom with
      | some v => { r with chrom := v }
      | Option.none => r)

/-- The sort key of `sort_values([chromField, startField], ascending=True)`:
lexicographic on the chromosome string, then numeric on the start. -/
def rowLe (a b : Row) : Prop :=
  a.chrom < b.chrom ∨ (a.chrom = b.chrom ∧ a.start ≤ b.start)

instance : DecidableRel rowLe := fun a b => by
  unfold rowLe; infer_instance

instance : IsTotal Row rowLe := by
  constructor
  intro a b
  rcases lt_trichotomy a.chrom b.chrom with h | h | h
  · exact Or.inl (Or.inl h)
  · rcases le_total a.start b.start with h2 | h2
    · exact Or.inl (Or.inr ⟨h, h2⟩)
    · exact Or.inr (Or.inr ⟨h.symm, h2⟩)
  · exact Or.inr (Or.inl h)

instance : IsTrans Row rowLe := by
  constructor
  intro a b c hab hbc
  rcases hab with h1 | ⟨h1, h1s⟩
  · rcases hbc with h2 | ⟨h2, _⟩
    · exact Or.inl (h1.trans h2)
    · exact Or.inl (h2 ▸ h1)
  · rcases hbc with h2 | ⟨h2, h2s⟩
    · exact Or.inl (h1 ▸ h2)
    · exact Or.inr ⟨h1.trans h2, h1s.trans h2s⟩

/-- Embedding of the sort step (`get_bed2bigBed.py` line 115,
`get_bedGraph2bigWig.py` line 107): `sort_values` sorts the table by the
(chrom, start) key; any sorting algorithm produces a `rowLe`-sorted list, so
the step is embedded as an insertion sort by that key. -/
def sortTable (rows : List Row) : List Row := List.insertionSort rowLe rows

/-- The strand cell of a BED4+ row: column 5, i.e. `rest` index 3
(`strandField = header[5]` at `get_bedGraph2bigWig.py` line 83). -/
def rowStrandCell (r : Row) : String := r.rest.getD 3 ""

/-- Embedding of the strand split filter (`get_bedGraph2bigWig.py` lines
89-90): keep the rows whose strand column equals the requested strand. -/
def strandFilter (strand : Option String) (rows : List Row) : List Row :=
  match strand with
  | Option.none => rows
  | some s => rows.filter (fun r => rowStrandCell r = s)

/-- Embedding of the colour step (`get_bed2bigBed.py` lines 117-121): unless
`--keep-color`, column 8 (`rest` index 6) is forced to `64,64,64`. -/
def forceColor (keep_color : Bool) (rows : List Row) : List Row :=
  if keep_color then rows
  else rows.map (fun r => { r with rest := r.rest.set 6 "64,64,64" })

/-- Embedding of the final projection `bed = bed[fields_to_keep]`
(`get_bed2bigBed.py` line 124, `get_bedGraph2bigWig.py` line 110) for field
sets that keep the chromosome and start columns (which the converters'
declared field sets do): `keepIdx` are the `rest` positions of the kept
non-key columns. -/
def projectRest (keepIdx : List Nat) (rows : List Row) : List Row :=
  rows.map (fun r => { r with rest := keepIdx.map (fun i => r.rest.getD i "") })

/-- The row transformation of `_get_bed` in `get_bed2bigBed.py` (lines
87-138): add-chr, chr-dict, chr-file, sort, colour forcing, projection, in
source order.  The written temporary BED file holds exactly these rows in
this order. -/
def get_bed_rows_bed2bigBed (addChr : Bool) (chrDict chrFile : Option (List (String × String)))
    (keep_color : Bool) (keepIdx : List Nat) (rows : List Row) : List Row :=
  projectRest keepIdx (forceColor keep_color
    (sortTable (applyChrFile chrFile (applyChrDict chrDict (applyAddChr addChr rows)))))

/-- The row transformation of `_get_bed` in `get_bedGraph2bigWig.py` (lines
70-124): strand filter, add-chr, chr-dict, chr-file, sort, projection, in
source order.  The written temporary bedGraph file holds exactly these rows
in this order. -/
def get_bed_rows_bedGraph (strand : Option String) (addChr : Bool)
    (chrDict chrFile : Option (List (String × String)))
    (keepIdx : List Nat) (rows : List Row) : List Row :=
  projectRest keepIdx
    (sortTable (applyChrFile chrFile (applyChrDict chrDict
      (applyAddChr addChr (strandFilter strand rows)))))

/-- Per-row form of one pass of the `--chr-dict` loop: fold the dict items
over a single row. -/
def chrDictRowApply (items : List (String × String)) (r : Row) : Row :=
  items.foldl (fun r p => if r.chrom = p.1 then { r with chrom := p.2 } else r) r

/-- Python name resolution: a bare name either is bound in the scope or raises
`NameError`. -/
def resolveName (env : List String) (n : String) : Except PyError Unit :=
  if env.contains n then .ok () else .error (.nameError n)

/-- The names bound and resolvable inside `main` of `get_bedGraph2bigWig.py`
when control reaches line 262 (module imports and module-level definitions,
plus every local `main` has assigned on any path up to that point).  The
misspelling `agrs` is not among them. -/
def bedGraph_main_scope : List String :=
  ["sys", "os", "glob", "re", "argparse", "logging", "yaml", "csv", "json",
   "pd", "utils", "logger", "default_fields", "BEDGRAPH_FIELDS", "_glob_re",
   "_read_bed", "_get_bed", "_convert", "main", "parser", "args", "msg",
   "programs", "match", "filenames", "config", "fileMapping", "f", "outputFile"]

/-- One invocation of `_convert` in `get_bedGraph2bigWig.py`: the bedGraph
input, the chrom.sizes file, and the file the conversion command declares as
its output (the third `bedGraphToBigWig` argument, also `out_files`). -/
structure ConvertCall where
  bg : String
  chrSizes : String
  target : String
deriving DecidableEq, Repr

/-- The `out_files` list `_convert` passes to `call_if_not_exists`
(`get_bedGraph2bigWig.py` line 130). -/
def convert_out_files (c : ConvertCall) : List String := [c.target]

/-- The command string `_convert` builds (`get_bedGraph2bigWig.py` lines
131-133). -/
def convert_cmd (c : ConvertCall) : String :=
  "bedGraphToBigWig " ++ c.bg ++ " " ++ c.chrSizes ++ " " ++ c.target

/-- The temporary bedGraph path written by `_get_bed`
(`get_bedGraph2bigWig.py` line 113). -/
def bedGraph_tmp_path (outputDir name : String) : String :=
  os_path_join outputDir (name ++ ".bedGraph")

/-- The final track target of the `--skip` branch
(`get_bedGraph2bigWig.py` line 277): `{outputDir}/{name}.bw`. -/
def bedGraph_skip_track_path (outputDir name : String) : String :=
  os_path_join outputDir (name ++ ".bw")

/-- The final track target of the strand-split branch
(`get_bedGraph2bigWig.py` line 290): `{outputDir}/{basename}.bb`. -/
def bedGraph_split_track_path (outputDir basename : String) : String :=
  os_path_join outputDir (basename ++ ".bb")

/-- The final track target of the plain (no `--skip`, no `--split-strand`)
branch (`get_bedGraph2bigWig.py` line 295): note the source writes
`'{}.bb'.format(newBed)`, so the declared output is `{outputDir}/{name}.bb`,
not `.bw`. -/
def bedGraph_final_track_path (outputDir name : String) : String :=
  os_path_join outputDir (name ++ ".bb")

/-- The argument fields of `get_bedGraph2bigWig.main` that the conversion
phase (lines 269-296) reads. -/
structure BedGraphArgs where
  outputDir : String
  chrSizes : String
  skip : Bool
  split_strand : Option (String × String)
  overwrite : Bool
  keep : Bool
deriving DecidableEq, Repr

/-- The `_convert` invocations the conversion phase of
`get_bedGraph2bigWig.main` (lines 269-296) declares for a built file mapping:
the `--skip` branch converts each source directly to `{name}.bw`; the
strand-split branch produces `{name}_{FWD}` and `{name}_{REV}` temporaries and
declares `.bb` targets (line 290); the plain branch produces the `{name}`
temporary and declares the `.bb` target of line 295. -/
def bedGraph_convert_calls (args : BedGraphArgs) (fileMapping : List (String × String)) :
    List ConvertCall :=
  if args.skip then
    fileMapping.map (fun p => ⟨p.2, args.chrSizes, bedGraph_skip_track_path args.outputDir p.1⟩)
  else
    match args.split_strand with
    | some (fwd, rev) =>
      fileMapping.flatMap (fun p =>
        [⟨bedGraph_tmp_path args.outputDir (p.1 ++ "_" ++ fwd), args.chrSizes,
          bedGraph_split_track_path args.outputDir (p.1 ++ "_" ++ fwd)⟩,
         ⟨bedGraph_tmp_path args.outputDir (p.1 ++ "_" ++ rev), args.chrSizes,
          bedGraph_split_track_path args.outputDir (p.1 ++ "_" ++ rev)⟩])
    | Option.none =>
      fileMapping.map (fun p =>
        ⟨bedGraph_tmp_path args.outputDir p.1, args.chrSizes,
         bedGraph_final_track_path args.outputDir p.1⟩)

/-- Embedding of `get_bedGraph2bigWig.main` from the point where input
discovery has completed and `fileMapping` is built (line 261 onward).  The
next statement, line 262, is `if agrs.split_strand is not None:`, which
evaluates the bare name `agrs`; only on success would the strand-keyword
warning and then the conversion loops of lines 269-296 run. -/
def bedGraph_main_after_mapping (args : BedGraphArgs)
    (fileMapping : List (String × String)) : Except PyError (List ConvertCall) :=
  match resolveName bedGraph_main_scope "agrs" with
  | .error e => .error e
  | .ok _ => .ok (bedGraph_convert_calls args fileMapping)

/-- The names bound and resolvable inside `main` of `get_bam2bigWig.py` when
control reaches the glob branch at line 92 (module imports and module-level
definitions, plus the locals assigned before line 92).  The module defines
only `_get_args` and `main` and imports no `_glob_re`, so that name is not
among them. -/
def bam_module_scope : List String :=
  ["sys", "os", "glob", "argparse", "logging", "pd", "utils", "logger",
   "_get_args", "main", "parser", "args", "msg", "programs", "bamc_args"]

/-- Filtering by a regular expression of the shape `.*(a1|a2|...).*` (or
`.*(a1)`), as the sibling modules' `_glob_re` applies it via `re.match` for
literal alternatives: a name survives when some alternative occurs in it. -/
def globReSubstr (alts : List String) (names : List String) : List String :=
  names.filter (fun n => alts.any (fun a => strContainsSub n.data a.data))

/-- The alternative list of `r'.*({}).*'.format('|'.join(args.pattern))`:
with the default `--pattern` (empty), the alternation is the empty string and
every name matches. -/
def bamPatternAlts (pattern : List String) : List String :=
  if pattern.isEmpty then [""] else pattern

/-- Embedding of the `--input-format glob` branch of `get_bam2bigWig.main`
(lines 91-95).  Line 92 is `filenames = list(_glob_re(r'.*(bam)', ...))`, a
use of the bare name `_glob_re`, which is neither defined nor imported in
`get_bam2bigWig.py`; the intended filtering (as realised by the sibling
modules' `_glob_re`) follows it and is never reached. -/
def bam_glob_discovery (inputDirListing : List String) (pattern : List String) :
    Except PyError (List String) :=
  match resolveName bam_module_scope "_glob_re" with
  | .error e => .error e
  | .ok _ =>
    let filenames := globReSubstr ["bam"] inputDirListing
    .ok (globReSubstr (bamPatternAlts pattern) filenames)

/-- A value in the hub YAML configuration: a plain string or a one-level
mapping (enough for the keys `get_hub.main` consults before building the hub
descriptor). -/
inductive ConfigVal where
  | str (s : String)
  | table (entries : List (String × String))
deriving DecidableEq, Repr

/-- The key list of a configuration dictionary (insertion ordered, as a Python
dict is; keys are unique). -/
def configKeys (config : List (String × ConfigVal)) : List String :=
  config.map Prod.fst

/-- Python `config[k]`: the value, or `KeyError` when absent. -/
def configIndex (config : List (String × ConfigVal)) (k : String) :
    Except PyError ConfigVal :=
  match config.lookup k with
  | some v => .ok v
  | Option.none => .error (.keyError k)

/-- Python `config.get(k, default)`: never raises. -/
def configGetD (config : List (String × ConfigVal)) (k : String)
    (default : ConfigVal) : ConfigVal :=
  match config.lookup k with
  | some v => v
  | Option.none => default

/-- Does a key match `re.search('^big.+?Files$', k)` (`get_hub.py` line 50)?
Equivalently: `k` starts with `big`, ends with `Files`, has at least one
character in between, and that middle contains no newline (`.` does not match
newlines). -/
def matchBigFiles (k : String) : Bool :=
  strStarts k "big" && strEnds k "Files" && decide (9 ≤ k.data.length) &&
    ((k.data.drop 3).take (k.data.length - 8)).all (fun c => c ≠ '\n')

/-- The `required_keys` list built at `get_hub.py` lines 56-60: the three
base keys, extended per supported format whose `big{Fmt}Files` key is present
(`Bed` before `Wig`). -/
def hub_required_keys (keys : List String) : List String :=
  ["hub", "genomesFile", "email"]
    ++ (if keys.contains "bigBedFiles" then ["bigBedFiles", "bigBedGlobalSettings"] else [])
    ++ (if keys.contains "bigWigFiles" then ["bigWigFiles", "bigWigGlobalSettings"] else [])

/-- The `missing_keys` computation of `utils.check_keys_exist`
(`phub/utils.py` line 435): the required keys not present in the dictionary,
in required order. -/
def missingKeys (config : List (String × ConfigVal)) (keys : List String) : List String :=
  keys.filter (fun k => !((configKeys config).contains k))

/-- Embedding of `utils.check_keys_exist` (`phub/utils.py` lines 415-443):
raises `KeyError` naming every missing key, else returns the (empty) missing
list. -/
def check_keys_exist (config : List (String × ConfigVal)) (keys : List String) :
    Except PyError (List String) :=
  let missing := missingKeys config keys
  if missing ≠ [] then
    .error (.keyError ("The following keys were not found: " ++
      String.intercalate " " missing))
  else
    .ok missing

/-- The hub descriptor `trackhub.Hub(...)` is built from (`get_hub.py` lines
70-74). -/
structure Hub where
  hub : ConfigVal
  short_label : ConfigVal
  long_label : ConfigVal
  email : ConfigVal
  filename : String
deriving DecidableEq, Repr

/-- Embedding of `get_hub.main` from the configuration checks through the hub
descriptor construction (`get_hub.py` lines 50-74): (1) at least one key must
match `^big.+?Files$`, else `KeyError`; (2) `check_keys_exist` on the
required-key list; (3) the labels: `short_label = config.get('shortLabel',
config['hub'])` and `long_label = config.get('longLabel', 'shortLabel')` —
the `try/except` around the latter is dead because `dict.get` never raises,
so the fallback is the literal string `shortLabel`; (4) the `Hub` record. -/
def get_hub_build (config : List (String × ConfigVal)) : Except PyError Hub :=
  if (configKeys config).any matchBigFiles = false then
    .error (.keyError "There are no files listed in the configuration file and/or the wrong key was used.")
  else
    match check_keys_exist config (hub_required_keys (configKeys config)) with
    | .error e => .error e
    | .ok _ =>
      match configIndex config "hub" with
      | .error e => .error e
      | .ok hubName =>
        match configIndex config "email" with
        | .error e => .error e
        | .ok email =>
          .ok { hub := hubName,
                short_label := configGetD config "shortLabel" hubName,
                long_label := configGetD config "longLabel" (.str "shortLabel"),
                email := email,
                filename := "hub.txt" }

/-- Python whitespace as stripped by `str.strip()`. -/
def isPySpace (c : Char) : Bool :=
  c = ' ' || c = '\t' || c = '\n' || c = '\r' || c = '\x0b' || c = '\x0c'

/-- Embedding of `str.strip()`. -/
def pyStrip (s : String) : String :=
  String.mk (((s.data.dropWhile isPySpace).reverse.dropWhile isPySpace).reverse)

/-- Helper for `str.split(',')` on the character level. -/
def splitCommaAux : List Char → List Char → List String
  | [], acc => [String.mk acc.reverse]
  | c :: cs, acc =>
    if c = ',' then String.mk acc.reverse :: splitCommaAux cs []
    else splitCommaAux cs (c :: acc)

/-- Embedding of `str.split(',')` (so `pySplitComma "" = [""]`). -/
def pySplitComma (s : String) : List String := splitCommaAux s.data []

/-- Python `fields[i]`: the element, or `IndexError` when out of range. -/
def pyIndex (l : List String) (i : Nat) : Except PyError String :=
  match l.get? i with
  | some v => .ok v
  | Option.none => .error (.indexError "list index out of range")

/-- The result of the `--configure-fields` processing in `get_bed2bigBed.main`
(lines 297-329): the kept field names, the derived type tag, and the lines of
the generated AutoSql (.as) file. -/
structure ConfigFieldsResult where
  fields_to_keep : List String
  bed_type : String
  as_lines : List String
deriving DecidableEq, Repr

/-- The fixed header written before the field lines (`get_bed2bigBed.py`
lines 306-308). -/
def asHeaderLines : List String :=
  ["table bedSourceSelectedFields",
   "\"Browser extensible data selected fields.\"",
   "("]

/-- The loop over the standard-field lines (`get_bed2bigBed.py` lines
309-317): each non-blank line `name,type,standardName,description` appends
`name` to `fields_to_keep` and writes `type\tstandardName;\tdescription`;
the first blank line sets `n_fields` to its line number and breaks (when no
line is blank, `n_fields` keeps its initial value 0). -/
def stdFieldLoop : List String → Nat → Except PyError (List String × List String × Nat)
  | [], _ => .ok ([], [], 0)
  | line :: rest, line_no => do
    let l := pyStrip line
    if l = "" then
      return ([], [], line_no)
    else
      let fields := pySplitComma l
      let f0 ← pyIndex fields 0
      let f1 ← pyIndex fields 1
      let f2 ← pyIndex fields 2
      let f3 ← pyIndex fields 3
      let (names, ls, n) ← stdFieldLoop rest (line_no + 1)
      return (f0 :: names, (f1 ++ "\t" ++ f2 ++ ";\t" ++ f3) :: ls, n)

/-- The loop over the extra-field lines after the blank separator
(`get_bed2bigBed.py` lines 320-324): same per-line processing, no blank
check. -/
def extraFieldLoop : List String → Except PyError (List String × List String)
  | [] => .ok ([], [])
  | line :: rest => do
    let l := pyStrip line
    let fields := pySplitComma l
    let f0 ← pyIndex fields 0
    let f1 ← pyIndex fields 1
    let f2 ← pyIndex fields 2
    let f3 ← pyIndex fields 3
    let (names, ls) ← extraFieldLoop rest
    return (f0 :: names, (f1 ++ "\t" ++ f2 ++ ";\t" ++ f3) :: ls)

/-- Embedding of the `--configure-fields` branch of `get_bed2bigBed.main`
(lines 297-329), applied to the `readlines()` result of the configuration
file: standard lines up to the first blank line, then — when `n_fields` is
non-zero — the lines after it as extra fields; `bed_type` is
`bed{standard}[+{extra}]` and the schema file is header, field lines, `)` . -/
def processConfigureFields (lines : List String) : Except PyError ConfigFieldsResult := do
  let (stdNames, stdLines, n_fields) ← stdFieldLoop lines 0
  let bed_type0 := "bed" ++ toString stdNames.length
  if n_fields ≠ 0 then
    let (extraNames, extraLines) ← extraFieldLoop (lines.drop (n_fields + 1))
    return { fields_to_keep := stdNames ++ extraNames,
             bed_type := bed_type0 ++ "+" ++ toString extraNames.length,
             as_lines := asHeaderLines ++ stdLines ++ extraLines ++ [")"] }
  else
    return { fields_to_keep := stdNames,
             bed_type := bed_type0,
             as_lines := asHeaderLines ++ stdLines ++ [")"] }

/-- The configuration the C6 evaluation uses: required keys present, neither
`shortLabel` nor `longLabel` present. -/
def exampleHubConfig : List (String × ConfigVal) :=
  [("hub", .str "myhub"),
   ("genomesFile", .str "genomes.txt"),
   ("email", .str "user@example.org"),
   ("bigWigFiles", .table [("track1", "data/track1.bw")]),
   ("bigWigGlobalSettings", .table [("trackType", "bigWig")])]

/-- No `shellCall` effect occurs in the `to_delete` removal loop. -/
theorem shellCall_not_mem_delete (w : World) (cmd : String) (td : List String) (c : String) :
    Effect.shellCall c ∉ deleteLoopEffects w cmd td := by
  intro h
  rw [deleteLoopEffects, List.mem_flatMap] at h
  obtain ⟨f, _, hmem⟩ := h
  rcases Bool.eq_false_or_eq_true (w.pathExists f) with hp | hp <;> simp [hp] at hmem

/-- When `out_files` is not `None`, its normalisation is the list of the
declared paths. -/
theorem outfiles_norm_listed (o : OutFiles) (h : o ≠ OutFiles.none) :
    o.norm = some o.listed := by
  cases o with
  | none => exact absurd rfl h
  | str s => rfl
  | list l => rfl

/-- C1: for every call to `call_if_not_exists` that declares output files
(`out_files` not `None`), in which every declared output path exists, every
input path (after `shlex` stripping) exists, and `overwrite` is false, the
function returns 0 and its effect trace contains no shell invocation. -/
theorem call_if_not_exists_existing_outputs_skip
    (w : World) (cmd : String) (out_files : OutFiles) (in_files : List String)
    (call raise_on_error : Bool) (file_checkers : Option (List String))
    (num_attempts : Nat) (to_delete : List String) (keep_delete_files : Bool)
    (houts : out_files ≠ OutFiles.none)
    (hout : ∀ p ∈ out_files.listed, w.pathExists p = true)
    (hin : ∀ f ∈ in_files, w.pathExists (w.shlexFirst f) = true) :
    ∃ tr, call_if_not_exists w cmd out_files in_files false call raise_on_error
        file_checkers num_attempts to_delete keep_delete_files = .ok (0, tr) ∧
      ∀ c, Effect.shellCall c ∉ tr := by
  have hmiss : (in_files.map w.shlexFirst).filter (fun f => !(w.pathExists f)) = [] := by
    apply List.filter_eq_nil_iff.mpr
    intro a ha
    obtain ⟨f, hf, rfl⟩ := List.mem_map.mp ha
    simp [hin f hf]
  have hallex : out_files.listed.all w.pathExists = true :=
    List.all_eq_true.mpr hout
  cases keep_delete_files with
  | false =>
    refine ⟨Effect.logWarning ("All output files " ++ pyListRepr out_files.listed ++
        " already exist. Skipping call: \n" ++ cmd) :: deleteLoopEffects w cmd to_delete,
      ?_, ?_⟩
    · rw [call_if_not_exists]
      simp only [hmiss, outfiles_norm_listed out_files houts, hallex]
      simp
    · intro c hc
      simp only [List.mem_cons] at hc
      rcases hc with hc | hc
      · exact Effect.noConfusion hc
      · exact shellCall_not_mem_delete w cmd to_delete c hc
  | true =>
    refine ⟨[Effect.logWarning ("All output files " ++ pyListRepr out_files.listed ++
        " already exist. Skipping call: \n" ++ cmd)], ?_, ?_⟩
    · rw [call_if_not_exists]
      simp only [hmiss, outfiles_norm_listed out_files houts, hallex]
      simp
    · intro c hc
      simp only [List.mem_singleton] at hc
      exact Effect.noConfusion hc

/-- Witness for C1 at a concrete world and argument list. -/
theorem call_if_not_exists_existing_outputs_skip_witness :
    ((OutFiles.list ["out/a.bw"]) ≠ OutFiles.none ∧
     (∀ p ∈ (OutFiles.list ["out/a.bw"]).listed,
        (⟨fun _ => true, fun _ => 0, fun _ _ => true, fun s => s⟩ : World).pathExists p = true) ∧
     (∀ f ∈ ["in.bedGraph"],
        (⟨fun _ => true, fun _ => 0, fun _ _ => true, fun s => s⟩ : World).pathExists
          ((⟨fun _ => true, fun _ => 0, fun _ _ => true, fun s => s⟩ : World).shlexFirst f) = true)) ∧
    ∃ tr, call_if_not_exists ⟨fun _ => true, fun _ => 0, fun _ _ => true, fun s => s⟩
        "bedGraphToBigWig in.bedGraph cs out/a.bw" (OutFiles.list ["out/a.bw"])
        ["in.bedGraph"] false true true Option.none 1 [] false = .ok (0, tr) ∧
      ∀ c, Effect.shellCall c ∉ tr :=
  ⟨⟨by decide, by decide, by decide⟩,
   call_if_not_exists_existing_outputs_skip
     ⟨fun _ => true, fun _ => 0, fun _ _ => true, fun s => s⟩
     "bedGraphToBigWig in.bedGraph cs out/a.bw" (OutFiles.list ["out/a.bw"])
     ["in.bedGraph"] true true Option.none 1 [] false
     (by decide) (by decide) (by decide)⟩

/-- C2: for every call to `call_if_not_exists` in which some input path does
not exist after `shlex` stripping, the call returns 0 with an effect trace
that is exactly one warning — so no shell invocation, no output-directory
creation, and no `to_delete` removal happen. -/
theorem call_if_not_exists_missing_inputs_skip
    (w : World) (cmd : String) (out_files : OutFiles) (in_files : List String)
    (overwrite call raise_on_error : Bool) (file_checkers : Option (List String))
    (num_attempts : Nat) (to_delete : List String) (keep_delete_files : Bool)
    (hmiss : ∃ f ∈ in_files, w.pathExists (w.shlexFirst f) = false) :
    ∃ m, call_if_not_exists w cmd out_files in_files overwrite call raise_on_error
        file_checkers num_attempts to_delete keep_delete_files =
      .ok (0, [Effect.logWarning m]) := by
  obtain ⟨f, hf, hpe⟩ := hmiss
  have hne : (in_files.map w.shlexFirst).filter (fun f => !(w.pathExists f)) ≠ [] := by
    apply List.ne_nil_of_mem (a := w.shlexFirst f)
    exact List.mem_filter.mpr ⟨List.mem_map_of_mem _ hf, by simp [hpe]⟩
  refine ⟨"Some input files " ++
      pyListRepr ((in_files.map w.shlexFirst).filter (fun f => !(w.pathExists f))) ++
      " are missing. Skipping call: \n" ++ cmd, ?_⟩
  rw [call_if_not_exists]
  simp only [if_pos hne]

/-- Witness for C2 at a concrete world and argument list. -/
theorem call_if_not_exists_missing_inputs_skip_witness :
    (∃ f ∈ ["gone.bedGraph"],
      (⟨fun _ => false, fun _ => 0, fun _ _ => true, fun s => s⟩ : World).pathExists
        ((⟨fun _ => false, fun _ => 0, fun _ _ => true, fun s => s⟩ : World).shlexFirst f) = false) ∧
    ∃ m, call_if_not_exists ⟨fun _ => false, fun _ => 0, fun _ _ => true, fun s => s⟩
        "bedGraphToBigWig gone.bedGraph cs out/a.bw" (OutFiles.list ["out/a.bw"])
        ["gone.bedGraph"] false true true Option.none 1 ["tmp.bedGraph"] false =
      .ok (0, [Effect.logWarning m]) :=
  ⟨⟨"gone.bedGraph", by decide, by decide⟩,
   call_if_not_exists_missing_inputs_skip
     ⟨fun _ => false, fun _ => 0, fun _ _ => true, fun s => s⟩
     "bedGraphToBigWig gone.bedGraph cs out/a.bw" (OutFiles.list ["out/a.bw"])
     ["gone.bedGraph"] false true true Option.none 1 ["tmp.bedGraph"] false
     ⟨"gone.bedGraph", by decide, by decide⟩⟩

/-- C3: once input discovery has completed and the file mapping is built,
`get_bedGraph2bigWig.main` raises `NameError` for the undefined name `agrs`
at the strand-keyword check, for every combination of flags and every file
mapping — so this code path never reaches the read/convert loops and never
declares an output. -/
theorem bedGraph_main_agrs_name_error (args : BedGraphArgs)
    (fileMapping : List (String × String)) :
    bedGraph_main_after_mapping args fileMapping =
      .error (.nameError "agrs") := rfl

/-- C4: the `--input-format glob` branch of `get_bam2bigWig.main` raises
`NameError` for `_glob_re` on every directory listing and every `--pattern`
value, instead of performing the intended extension/pattern filtering. -/
theorem bam_glob_branch_glob_re_name_error (inputDirListing pattern : List String) :
    bam_glob_discovery inputDirListing pattern =
      .error (.nameError "_glob_re") := rfl

/-- C5: in the plain branch (no `--skip`, no `--split-strand`) of
`get_bedGraph2bigWig.main`, the conversion command's declared output for the
mapped name `sample` under output directory `tracks/` is `tracks/sample.bb` —
a `.bb` extension, not the `.bw` the claim states. -/
theorem bedGraph_plain_branch_declares_bb_target :
    bedGraph_convert_calls ⟨"tracks/", "chrom.sizes", false, Option.none, false, false⟩
        [("sample", "data/sample.bedGraph")] =
      [⟨"tracks/sample.bedGraph", "chrom.sizes", "tracks/sample.bb"⟩] ∧
    bedGraph_final_track_path "tracks/" "sample" = "tracks/sample.bb" ∧
    convert_out_files ⟨"tracks/sample.bedGraph", "chrom.sizes", "tracks/sample.bb"⟩ =
      ["tracks/sample.bb"] ∧
    bedGraph_final_track_path "tracks/" "sample" ≠ "tracks/sample.bw" :=
  ⟨rfl, rfl, rfl, by decide⟩

/-- C6: on a configuration with `hub`, `genomesFile` and `email` but neither
`shortLabel` nor `longLabel`, the built hub descriptor's short label is the
hub name but its long label is the literal string `shortLabel` (the dead
`except` branch never substitutes the hub name), contradicting the claim that
both labels default to the hub name. -/
theorem hub_long_label_literal_shortLabel :
    ∃ h : Hub, get_hub_build exampleHubConfig = .ok h ∧
      h.short_label = ConfigVal.str "myhub" ∧
      h.long_label = ConfigVal.str "shortLabel" ∧
      h.long_label ≠ ConfigVal.str "myhub" :=
  ⟨{ hub := .str "myhub", short_label := .str "myhub", long_label := .str "shortLabel",
     email := .str "user@example.org", filename := "hub.txt" },
   rfl, rfl, rfl, by decide⟩

/-- C7: every configuration with the keys `hub`, `genomesFile`, `email` and
`bigWigFiles` but without `bigWigGlobalSettings` makes `get_hub_build` stop
with the `check_keys_exist` `KeyError`, whose missing-key list (joined into
the message) contains `bigWigGlobalSettings`; no hub descriptor is built. -/
theorem hub_missing_bigWigGlobalSettings_key_error
    (config : List (String × ConfigVal))
    (_hhub : (configKeys config).contains "hub" = true)
    (_hgen : (configKeys config).contains "genomesFile" = true)
    (_hem : (configKeys config).contains "email" = true)
    (hwf : (configKeys config).contains "bigWigFiles" = true)
    (hmiss : (configKeys config).contains "bigWigGlobalSettings" = false) :
    "bigWigGlobalSettings" ∈ missingKeys config (hub_required_keys (configKeys config)) ∧
    get_hub_build config = .error (.keyError ("The following keys were not found: " ++
      String.intercalate " " (missingKeys config (hub_required_keys (configKeys config))))) := by
  have hreq : "bigWigGlobalSettings" ∈ hub_required_keys (configKeys config) := by
    rw [hub_required_keys, hwf]
    simp
  have hmem : "bigWigGlobalSettings" ∈
      missingKeys config (hub_required_keys (configKeys config)) := by
    rw [missingKeys]
    exact List.mem_filter.mpr ⟨hreq, by rw [hmiss]; rfl⟩
  refine ⟨hmem, ?_⟩
  have hany : (configKeys config).any matchBigFiles = true := by
    apply List.any_eq_true.mpr
    refine ⟨"bigWigFiles", ?_, by decide⟩
    simpa using hwf
  rw [get_hub_build, if_neg (by rw [hany]; simp)]
  rw [check_keys_exist]
  simp only [if_pos (List.ne_nil_of_mem hmem)]

/-- Witness for C7 at a concrete configuration. -/
theorem hub_missing_bigWigGlobalSettings_key_error_witness :
    ((configKeys [("hub", ConfigVal.str "h"), ("genomesFile", ConfigVal.str "g"),
        ("email", ConfigVal.str "e"), ("bigWigFiles", ConfigVal.table [])]).contains "hub" = true ∧
     (configKeys [("hub", ConfigVal.str "h"), ("genomesFile", ConfigVal.str "g"),
        ("email", ConfigVal.str "e"), ("bigWigFiles", ConfigVal.table [])]).contains "genomesFile" = true ∧
     (configKeys [("hub", ConfigVal.str "h"), ("genomesFile", ConfigVal.str "g"),
        ("email", ConfigVal.str "e"), ("bigWigFiles", ConfigVal.table [])]).contains "email" = true ∧
     (configKeys [("hub", ConfigVal.str "h"), ("genomesFile", ConfigVal.str "g"),
        ("email", ConfigVal.str "e"), ("bigWigFiles", ConfigVal.table [])]).contains "bigWigFiles" = true ∧
     (configKeys [("hub", ConfigVal.str "h"), ("genomesFile", ConfigVal.str "g"),
        ("email", ConfigVal.str "e"), ("bigWigFiles", ConfigVal.table [])]).contains "bigWigGlobalSettings" = false) ∧
    ("bigWigGlobalSettings" ∈ missingKeys [("hub", ConfigVal.str "h"), ("genomesFile", ConfigVal.str "g"),
        ("email", ConfigVal.str "e"), ("bigWigFiles", ConfigVal.table [])]
        (hub_required_keys (configKeys [("hub", ConfigVal.str "h"), ("genomesFile", ConfigVal.str "g"),
          ("email", ConfigVal.str "e"), ("bigWigFiles", ConfigVal.table [])])) ∧
     get_hub_build [("hub", ConfigVal.str "h"), ("genomesFile", ConfigVal.str "g"),
        ("email", ConfigVal.str "e"), ("bigWigFiles", ConfigVal.table [])] =
       .error (.keyError ("The following keys were not found: " ++
         String.intercalate " " (missingKeys [("hub", ConfigVal.str "h"), ("genomesFile", ConfigVal.str "g"),
           ("email", ConfigVal.str "e"), ("bigWigFiles", ConfigVal.table [])]
           (hub_required_keys (configKeys [("hub", ConfigVal.str "h"), ("genomesFile", ConfigVal.str "g"),
             ("email", ConfigVal.str "e"), ("bigWigFiles", ConfigVal.table [])])))))) :=
  ⟨⟨by decide, by decide, by decide, by decide, by decide⟩,
   hub_missing_bigWigGlobalSettings_key_error
     [("hub", ConfigVal.str "h"), ("genomesFile", ConfigVal.str "g"),
      ("email", ConfigVal.str "e"), ("bigWigFiles", ConfigVal.table [])]
     (by decide) (by decide) (by decide) (by decide) (by decide)⟩

/-- C8: on a `--configure-fields` file whose `readlines()` result is the line
`name,string,Name,"d"`, a blank line, then `score,uint,Score,"d"`, the derived
type tag is `bed1+1` and the generated AutoSql file lists exactly the `name`
field line and then the `score` field line, in that order. -/
theorem configure_fields_bed1_plus_1 :
    processConfigureFields ["name,string,Name,\"d\"\n", "\n", "score,uint,Score,\"d\"\n"] =
      .ok { fields_to_keep := ["name", "score"],
            bed_type := "bed1+1",
            as_lines := ["table bedSourceSelectedFields",
                         "\"Browser extensible data selected fields.\"", "(",
                         "string\tName;\t\"d\"", "uint\tScore;\t\"d\"", ")"] } := rfl

/-- Counterexample for C9: the `--chr-dict` loop is applied item after item,
so with the mapping `{"b": "c", "a": "b"}` a single row named `a` becomes `b`
and then `c` on a second pass — the remap is not idempotent (and the row does
not receive its own key's value `b` either). -/
theorem chr_dict_second_pass_not_idempotent :
    applyChrDict (some [("b", "c"), ("a", "b")])
        (applyChrDict (some [("b", "c"), ("a", "b")])
          [{ chrom := "a", start := 0, rest := [] }]) ≠
      applyChrDict (some [("b", "c"), ("a", "b")])
        [{ chrom := "a", start := 0, rest := [] }] := by decide

/-- One fold step of `chrDictRowApply`. -/
theorem chrDictRowApply_cons (p : String × String) (tl : List (String × String)) (r : Row) :
    chrDictRowApply (p :: tl) r =
      chrDictRowApply tl (if r.chrom = p.1 then { r with chrom := p.2 } else r) := rfl

/-- A row whose chromosome matches no old key passes through the `--chr-dict`
loop unchanged. -/
theorem chrDictRowApply_no_match (items : List (String × String)) (r : Row)
    (h : ∀ p ∈ items, r.chrom ≠ p.1) : chrDictRowApply items r = r := by
  induction items with
  | nil => rfl
  | cons p tl ih =>
    rw [chrDictRowApply_cons, if_neg (h p (List.mem_cons_self p tl))]
    exact ih (fun q hq => h q (List.mem_cons_of_mem p hq))

/-- The item-by-item table remap equals the per-row fold applied to every
row. -/
theorem applyChrDict_eq_map (items : List (String × String)) (rows : List Row) :
    applyChrDict (some items) rows = rows.map (chrDictRowApply items) := by
  induction items generalizing rows with
  | nil =>
    show rows = rows.map (chrDictRowApply [])
    rw [show chrDictRowApply ([] : List (String × String)) = id from rfl, List.map_id]
  | cons p tl ih =>
    have h1 : applyChrDict (some (p :: tl)) rows =
        applyChrDict (some tl)
          (rows.map (fun r => if r.chrom = p.1 then { r with chrom := p.2 } else r)) := rfl
    rw [h1, ih, List.map_map]
    rfl

/-- A row whose chromosome matches the old key `k` of an item `(k, v)` of a
mapping with distinct old keys whose new values hit no old key ends the
`--chr-dict` loop renamed to `v` (all other fields unchanged). -/
theorem chrDictRowApply_matched : ∀ (items : List (String × String)) (r : Row) (k v : String),
    (items.map Prod.fst).Nodup → (∀ p ∈ items, ∀ q ∈ items, p.2 ≠ q.1) →
    (k, v) ∈ items → r.chrom = k → chrDictRowApply items r = { r with chrom := v }
  | [], r, k, v, _, _, hkv, _ => by simp at hkv
  | p :: tl, r, k, v, hnodup, hsep, hkv, hr => by
    rw [chrDictRowApply_cons]
    by_cases hp : r.chrom = p.1
    · rw [if_pos hp]
      rcases List.mem_cons.mp hkv with he | htl
      · have hnm : ∀ q ∈ tl, ({ r with chrom := p.2 } : Row).chrom ≠ q.1 := by
          intro q hq
          exact hsep p (List.mem_cons_self p tl) q (List.mem_cons_of_mem p hq)
        rw [chrDictRowApply_no_match tl _ hnm]
        have hv : p.2 = v := by rw [← he]
        rw [hv]
      · exfalso
        have hk1 : k = p.1 := by rw [← hr, hp]
        have hmem : p.1 ∈ tl.map Prod.fst := hk1 ▸ List.mem_map_of_mem Prod.fst htl
        exact (List.nodup_cons.mp hnodup).1 hmem
    · rw [if_neg hp]
      rcases List.mem_cons.mp hkv with he | htl
      · exfalso
        apply hp
        rw [hr, ← he]
      · exact chrDictRowApply_matched tl r k v (List.nodup_cons.mp hnodup).2
          (fun a ha b hb => hsep a (List.mem_cons_of_mem p ha) b (List.mem_cons_of_mem p hb))
          htl hr

/-- C9 (amended): for every non-empty `--chr-dict` mapping whose old keys are
distinct and whose new values match no old key, the remap renames every row
matching an old key to that key's new value, leaves every non-matching row
unchanged, and a second pass with the same mapping changes nothing.  (As
stated the claim is false: the items are applied sequentially, so a new value
equal to a later old key is rewritten again — see the counterexample.) -/
theorem chr_dict_exact_match_remap_amended (items : List (String × String)) (rows : List Row)
    (_hne : items ≠ [])
    (hnodup : (items.map Prod.fst).Nodup)
    (hsep : ∀ p ∈ items, ∀ q ∈ items, p.2 ≠ q.1) :
    applyChrDict (some items) rows = rows.map (chrDictRowApply items) ∧
    (∀ r : Row, (∀ p ∈ items, r.chrom ≠ p.1) → chrDictRowApply items r = r) ∧
    (∀ (r : Row) (k v : String), (k, v) ∈ items → r.chrom = k →
      chrDictRowApply items r = { r with chrom := v }) ∧
    applyChrDict (some items) (applyChrDict (some items) rows) =
      applyChrDict (some items) rows := by
  refine ⟨applyChrDict_eq_map items rows,
    fun r h => chrDictRowApply_no_match items r h,
    fun r k v hkv hr => chrDictRowApply_matched items r k v hnodup hsep hkv hr, ?_⟩
  rw [applyChrDict_eq_map, applyChrDict_eq_map, List.map_map]
  apply List.map_congr_left
  intro r _
  by_cases hm : ∃ p ∈ items, r.chrom = p.1
  · obtain ⟨p, hp, hc⟩ := hm
    have h1 : chrDictRowApply items r = { r with chrom := p.2 } :=
      chrDictRowApply_matched items r p.1 p.2 hnodup hsep (by simpa using hp) hc
    have h2 : chrDictRowApply items { r with chrom := p.2 } = { r with chrom := p.2 } := by
      apply chrDictRowApply_no_match
      intro q hq
      exact hsep p hp q hq
    show chrDictRowApply items (chrDictRowApply items r) = chrDictRowApply items r
    rw [h1, h2]
  · push_neg at hm
    have h1 : chrDictRowApply items r = r := chrDictRowApply_no_match items r hm
    show chrDictRowApply items (chrDictRowApply items r) = chrDictRowApply items r
    rw [h1]
    exact h1

/-- Witness for the amended C9 at a concrete mapping and table. -/
theorem chr_dict_exact_match_remap_amended_witness :
    (([("a", "b")] : List (String × String)) ≠ [] ∧
     (([("a", "b")] : List (String × String)).map Prod.fst).Nodup ∧
     (∀ p ∈ ([("a", "b")] : List (String × String)),
        ∀ q ∈ ([("a", "b")] : List (String × String)), p.2 ≠ q.1)) ∧
    (applyChrDict (some [("a", "b")]) [{ chrom := "a", start := 3, rest := ["7"] }] =
        [{ chrom := "a", start := 3, rest := ["7"] }].map (chrDictRowApply [("a", "b")]) ∧
     (∀ r : Row, (∀ p ∈ ([("a", "b")] : List (String × String)), r.chrom ≠ p.1) →
        chrDictRowApply [("a", "b")] r = r) ∧
     (∀ (r : Row) (k v : String), (k, v) ∈ ([("a", "b")] : List (String × String)) →
        r.chrom = k → chrDictRowApply [("a", "b")] r = { r with chrom := v }) ∧
     applyChrDict (some [("a", "b")])
        (applyChrDict (some [("a", "b")]) [{ chrom := "a", start := 3, rest := ["7"] }]) =
       applyChrDict (some [("a", "b")]) [{ chrom := "a", start := 3, rest := ["7"] }]) :=
  ⟨⟨by decide, by decide, by decide⟩,
   chr_dict_exact_match_remap_amended [("a", "b")]
     [{ chrom := "a", start := 3, rest := ["7"] }]
     (by decide) (by decide) (by decide)⟩

/-- The table sort step produces a `rowLe`-sorted list. -/
theorem sortTable_sorted (rows : List Row) : List.Sorted rowLe (sortTable rows) :=
  List.sorted_insertionSort rowLe rows

/-- Row maps that keep the chromosome and start fields preserve pairwise
`rowLe`. -/
theorem pairwise_map_preserve {f : Row → Row}
    (hf : ∀ r, (f r).chrom = r.chrom ∧ (f r).start = r.start)
    {l : List Row} (h : List.Pairwise rowLe l) : List.Pairwise rowLe (l.map f) := by
  apply List.Pairwise.map f ?_ h
  intro a b hab
  rcases hab with h1 | ⟨h1, h2⟩
  · exact Or.inl (by rw [(hf a).1, (hf b).1]; exact h1)
  · exact Or.inr ⟨by rw [(hf a).1, (hf b).1]; exact h1,
      by rw [(hf a).2, (hf b).2]; exact h2⟩

/-- C10: in every table `_get_bed` writes out — for `get_bed2bigBed.py` and
for `get_bedGraph2bigWig.py`, for all flag combinations — every adjacent pair
of output rows `(r1, r2)` satisfies `r1.chrom < r2.chrom` (as strings) or
`r1.chrom = r2.chrom` and `r1.start ≤ r2.start` (numerically). -/
theorem converter_written_tables_sorted (addChr : Bool)
    (chrDict chrFile : Option (List (String × String)))
    (keep_color : Bool) (keepIdx keepIdx2 : List Nat) (strand : Option String)
    (rows rows2 : List Row) :
    List.Chain' (fun r1 r2 => r1.chrom < r2.chrom ∨ (r1.chrom = r2.chrom ∧ r1.start ≤ r2.start))
      (get_bed_rows_bed2bigBed addChr chrDict chrFile keep_color keepIdx rows) ∧
    List.Chain' (fun r1 r2 => r1.chrom < r2.chrom ∨ (r1.chrom = r2.chrom ∧ r1.start ≤ r2.start))
      (get_bed_rows_bedGraph strand addChr chrDict chrFile keepIdx2 rows2) := by
  constructor
  · apply List.Pairwise.chain'
    rw [get_bed_rows_bed2bigBed, projectRest]
    apply pairwise_map_preserve
    · intro r
      exact ⟨rfl, rfl⟩
    · cases keep_color with
      | true =>
        rw [forceColor]
        simp only [if_pos]
        exact sortTable_sorted _
      | false =>
        rw [forceColor]
        simp only [Bool.false_eq_true, if_neg]
        apply pairwise_map_preserve
        · intro r
          exact ⟨rfl, rfl⟩
        · exact sortTable_sorted _
  · apply List.Pairwise.chain'
    rw [get_bed_rows_bedGraph, projectRest]
    apply pairwise_map_preserve
    · intro r
      exact ⟨rfl, rfl⟩
    · exact sortTable_sorted _
